import Mathlib

/-!
Shallow embedding of the pixellab-mcp server (TypeScript) for verification.

The repository is integration glue around a remote image API: response-shaping
utilities (src/src/utils.ts), a retry-with-backoff helper (tests/utils.ts),
and eight thin tool handlers.  JavaScript runtime values that can be thrown or
serialized are modelled by the inductive type `JsValue`; a self-referencing
(cyclic) object, which cannot be represented inductively, is modelled by the
dedicated constructor `JsValue.cyclic`, whose JSON serialization fails.
Asynchronous effects (remote API calls, image-file loads, image-file saves)
are passed to each handler as explicit `Except`-valued arguments, so a thrown
JS exception is an `Except.error` carrying the thrown value.
-/

/-- model of a JavaScript runtime value as relevant to this code base.
`errObj rateLimit message` is an `Error` instance (`rateLimit` records whether
it is additionally an instance of the `RateLimitError` subclass); `obj` and
`arr` are acyclic plain objects and arrays; `cyclic` stands for a
self-referencing object, i.e. an object value whose `JSON.stringify` throws. -/
inductive JsValue where
  | undef : JsValue
  | nul : JsValue
  | bool (b : Bool) : JsValue
  | num (n : Int) : JsValue
  | str (s : String) : JsValue
  | errObj (rateLimit : Bool) (message : String) : JsValue
  | obj (fields : List (String × JsValue)) : JsValue
  | arr (elems : List JsValue) : JsValue
  | cyclic : JsValue

/-- one MCP content item: `{type: "text", text}` or
`{type: "image", data, mimeType}` (src/src/utils.ts lines 4-11). -/
inductive ContentItem where
  | text (text : String) : ContentItem
  | image (data : String) (mimeType : String) : ContentItem
deriving DecidableEq

/-- the `McpToolResponse` record of src/src/utils.ts: a content list and an
optional `isError` flag (absent is modelled as `none`). -/
structure McpToolResponse where
  content : List ContentItem
  isError : Option Bool := none
deriving DecidableEq

/-- a base64-encoded image as exposed by the pixellab client library: the
`dataUrl` accessor (used by the response shapers) and the raw `base64`
accessor (used by the animation handlers). -/
structure Base64Image where
  dataUrl : String
  base64 : String
deriving DecidableEq

/-- JavaScript truthiness of a value, as tested by `if (metadata)`. -/
def truthy : JsValue → Bool
  | .undef => false
  | .nul => false
  | .bool b => b
  | .num n => decide (n ≠ 0)
  | .str s => decide (s ≠ "")
  | _ => true

/-- escape of one character inside a JSON string literal. -/
def escChar (c : Char) : List Char :=
  if c = '"' then ['\\', '"']
  else if c = '\\' then ['\\', '\\']
  else if c = '\n' then ['\\', 'n']
  else if c = '\t' then ['\\', 't']
  else if c = '\r' then ['\\', 'r']
  else [c]

/-- a JSON string literal with quotes, as produced by `JSON.stringify`. -/
def jsonQuote (s : String) : String :=
  "\"" ++ String.mk (s.data.map escChar).flatten ++ "\""

/-- a run of `n` indentation spaces. -/
def spaces (n : Nat) : String :=
  String.mk (List.replicate n ' ')

mutual

/-- test whether a value contains a self-referencing object, i.e. whether
`JSON.stringify` on it throws. -/
def hasCyclic : JsValue → Bool
  | .cyclic => true
  | .obj fields => hasCyclicFields fields
  | .arr elems => hasCyclicElems elems
  | _ => false

def hasCyclicFields : List (String × JsValue) → Bool
  | [] => false
  | (_, v) :: rest => hasCyclic v || hasCyclicFields rest

def hasCyclicElems : List JsValue → Bool
  | [] => false
  | v :: rest => hasCyclic v || hasCyclicElems rest

end

mutual

/-- pretty-printed JSON rendering at indentation `ind`, following the layout
of `JSON.stringify(value, null, 2)`: object fields with `undefined` values are
skipped, `undefined` array elements render as `null`, `Error` instances render
as an empty object.  The `cyclic` case is unreachable under the `hasCyclic`
guard of `jsonStringify`. -/
def jsonRender (ind : Nat) : JsValue → String
  | .undef => "null"
  | .nul => "null"
  | .bool b => if b then "true" else "false"
  | .num n => toString n
  | .str s => jsonQuote s
  | .errObj _ _ => "\x7b\x7d"
  | .cyclic => ""
  | .obj fields =>
      let fs := jsonFieldStrs (ind + 2) fields
      if fs.isEmpty then "\x7b\x7d"
      else
        "\x7b\n" ++ String.intercalate ",\n" (fs.map (fun p => spaces (ind + 2) ++ p))
          ++ "\n" ++ spaces ind ++ "\x7d"
  | .arr elems =>
      let es := jsonElemStrs (ind + 2) elems
      if es.isEmpty then "[]"
      else
        "[\n" ++ String.intercalate ",\n" (es.map (fun p => spaces (ind + 2) ++ p))
          ++ "\n" ++ spaces ind ++ "]"

def jsonFieldStrs (ind : Nat) : List (String × JsValue) → List String
  | [] => []
  | (_, .undef) :: rest => jsonFieldStrs ind rest
  | (k, v) :: rest => (jsonQuote k ++ ": " ++ jsonRender ind v) :: jsonFieldStrs ind rest

def jsonElemStrs (ind : Nat) : List JsValue → List String
  | [] => []
  | v :: rest => jsonRender ind v :: jsonElemStrs ind rest

end

/-- model of `JSON.stringify(value, null, 2)`: `none` when the call throws
(self-referencing value), otherwise the rendered string. -/
def jsonStringify (v : JsValue) : Option String :=
  if hasCyclic v then none else some (jsonRender 0 v)

/-- result of `Object.prototype.toString.call` on the object-typed values
that can reach the serialization fallback of `toMcpError`. -/
def jsToStringTag : JsValue → String
  | .arr _ => "[object Array]"
  | .errObj _ _ => "[object Error]"
  | _ => "[object Object]"

/-- result of the JavaScript `String(v)` conversion for the primitive values
reaching the final branch of `toMcpError`. -/
def jsString : JsValue → String
  | .undef => "undefined"
  | .nul => "null"
  | .bool b => if b then "true" else "false"
  | .num n => toString n
  | .str s => s
  | .errObj _ m => "Error: " ++ m
  | v => jsToStringTag v

/-- the error thrown by `JSON.stringify` on a self-referencing value: a
`TypeError` instance (hence an `Error` instance, not a rate-limit error). -/
def circularJsonError : JsValue :=
  .errObj false "Converting circular structure to JSON"

/-- lift of `jsonStringify` into `Except`: a serialization failure becomes a
thrown `TypeError`, as in the un-guarded `JSON.stringify` call sites. -/
def stringifyE (v : JsValue) : Except JsValue String :=
  match jsonStringify v with
  | some s => .ok s
  | none => .error circularJsonError

/-- embedding of `toMcpError` (src/src/utils.ts lines 31-59): branch on
`instanceof Error`, then `typeof error === "string"`, then
`typeof error === "object" && error !== null` with a guarded
`JSON.stringify`, else the `Unknown error` fallback. -/
def toMcpError (error : JsValue) : McpToolResponse :=
  let errorMessage : String :=
    match error with
    | .errObj _ m => m
    | .str s => s
    | .obj _ | .arr _ | .cyclic =>
        match jsonStringify error with
        | some s => s
        | none => "Object error: " ++ jsToStringTag error
    | _ => "Unknown error: " ++ jsString error
  { content := [.text ("Error: " ++ errorMessage)], isError := some true }

/-- embedding of `toMcpResponse` (src/src/utils.ts lines 14-29).  The image
argument is required, exactly as in the source signature; `metadata` models
the optional `metadata?: any` argument, appended when truthy.  The result is
`Except`-valued because the `JSON.stringify(metadata, null, 2)` call is not
guarded and throws on a self-referencing metadata value. -/
def toMcpResponse (description : String) (image : Base64Image)
    (metadata : Option JsValue) : Except JsValue McpToolResponse :=
  let base : List ContentItem :=
    [.text description, .image image.dataUrl "image/png"]
  match metadata with
  | some m =>
      if truthy m then
        (stringifyE m).map (fun s => { content := base ++ [.text s] })
      else .ok { content := base }
  | none => .ok { content := base }

/-- embedding of `toMcpComparison` (src/src/utils.ts lines 62-81). -/
def toMcpComparison (description : String) (beforeImage afterImage : Base64Image)
    (metadata : Option JsValue) : Except JsValue McpToolResponse :=
  let base : List ContentItem :=
    [.text description, .text "Before:", .image beforeImage.dataUrl "image/png",
     .text "After:", .image afterImage.dataUrl "image/png"]
  match metadata with
  | some m =>
      if truthy m then
        (stringifyE m).map (fun s => { content := base ++ [.text s] })
      else .ok { content := base }
  | none => .ok { content := base }

/-! ## Retry-with-backoff helper (tests/utils.ts, src/unnamed/part_005) -/

/-- test whether `pat` occurs as a contiguous substring of a character list,
modelling `String.prototype.includes`. -/
def listHasPat (pat : List Char) : List Char → Bool
  | [] => pat.isEmpty
  | c :: t => pat.isPrefixOf (c :: t) || listHasPat pat t

/-- model of the JavaScript `s.includes(pat)` test. -/
def strIncludes (s pat : String) : Bool :=
  listHasPat pat.data s.data

/-- the rate-limit classification of retryWithBackoff (part_005 lines 21-25):
`error instanceof RateLimitError`, or an `Error` whose message contains
`"rate limit"` or `"wait longer between generations"`. -/
def isRateLimitError (error : JsValue) : Bool :=
  match error with
  | .errObj rl m =>
      rl || (strIncludes m "rate limit" || strIncludes m "wait longer between generations")
  | _ => false

/-- whether an operation outcome is a thrown rate-limit error. -/
def failsRateLimit {α : Type} (r : Except JsValue α) : Bool :=
  match r with
  | .error e => isRateLimitError e
  | .ok _ => false

/-- observable trace of one `retryWithBackoff` run: the final outcome, the
number of invocations of the wrapped operation, and the list of back-off
delays slept between attempts. -/
structure RetryTrace (α : Type) where
  result : Except JsValue α
  calls : Nat
  delays : List Nat

/-- the attempt loop of `retryWithBackoff` (part_005 lines 14-40): invoke the
operation at the current attempt index; on success return; on a rate-limit
failure with attempts remaining, sleep `baseDelay * 2 ^ attempt` and retry;
otherwise re-throw the error.  `fn i` is the outcome of the `i`-th invocation
of the wrapped zero-argument operation. -/
def retryGo {α : Type} (fn : Nat → Except JsValue α) (baseDelay maxRetries attempt : Nat) :
    RetryTrace α :=
  match fn attempt with
  | .ok v => ⟨.ok v, 1, []⟩
  | .error e =>
      if isRateLimitError e ∧ attempt < maxRetries then
        let rest := retryGo fn baseDelay maxRetries (attempt + 1)
        ⟨rest.result, rest.calls + 1, baseDelay * 2 ^ attempt :: rest.delays⟩
      else ⟨.error e, 1, []⟩
termination_by maxRetries - attempt

/-- embedding of `retryWithBackoff(fn, maxRetries, baseDelay)`
(src/unnamed/part_005 lines 7-43), returning the run trace. -/
def retryWithBackoff {α : Type} (fn : Nat → Except JsValue α)
    (maxRetries baseDelay : Nat) : RetryTrace α :=
  retryGo fn baseDelay maxRetries 0

/-! ## Frame-path expansion for multi-frame saves -/

/-- split a path (as characters) at the position matched by the regular
expression used in the animation handlers, which matches an optional final
group of the form dot-then-nondots at the end of the string: the result is
the part before the match and the matched group (empty when the path has no
such extension). -/
def splitExtChars (l : List Char) : List Char × List Char :=
  let r := l.reverse
  let revExt := r.takeWhile (fun c => c ≠ '.')
  match r.dropWhile (fun c => c ≠ '.') with
  | [] => (l, [])
  | _ :: revStem =>
      if revExt.isEmpty then (l, [])
      else (revStem.reverse, '.' :: revExt.reverse)

/-- model of `path.replace(/(\.[^.]+)?$/, marker + "$1")`: insert `marker`
before the final extension when one exists, else append it. -/
def replaceExt (path marker : String) : String :=
  let p := splitExtChars path.data
  String.mk (p.1 ++ marker.data ++ p.2)

/-- the per-frame file name of the animation handlers:
`path.replace(/(\.[^.]+)?$/, "_frame" + i + "$1")`. -/
def insertFrame (path : String) (i : Nat) : String :=
  replaceExt path ("_frame" ++ toString i)

/-- the `"Files saved:"` label of the animation handlers, inserting a
`_frame{0-(n-1)}` marker before the extension. -/
def frameRangeLabel (path : String) (n : Nat) : String :=
  replaceExt path ("_frame\x7b0-" ++ toString (n - 1) ++ "\x7d")

/-! ## Shared remote-result records -/

/-- rendering-relevant observations of the remote `usage` record.  The field
`usage.usd` is a JavaScript float; the embedding carries its two renderings
used by the handlers (template interpolation and `toFixed(4)`) together with
its JSON value, used inside metadata objects. -/
structure Usage where
  usdStr : String
  usdFixed : String
  js : JsValue

/-- result of a single-image remote generation call: an image and a usage
record. -/
structure GenResponse where
  image : Base64Image
  usage : Usage

/-- result of the remote `getBalance` call; `usdStr` is the rendering of the
float `balance.usd`. -/
structure Balance where
  usdStr : String

/-- one labeled keypoint of the skeleton-estimation result. -/
structure Keypoint where
  x : Int
  y : Int
  label : String
  zIndex : Int

/-- result of the remote `estimateSkeleton` call. -/
structure SkeletonResponse where
  keypoints : List Keypoint
  usage : Usage

/-- result of a remote animation call: a list of frames and a usage record. -/
structure AnimResult where
  images : List Base64Image
  usage : Usage

/-- the JSON value of an optional string argument inside a metadata object:
an absent argument is `undefined` (so `JSON.stringify` skips the field). -/
def jsOfOptStr : Option String → JsValue
  | none => .undef
  | some s => .str s

/-- the optional file save of the single-image handlers:
`if (args.save_to_file) await image.saveToFile(args.save_to_file)`.  The
guard is a JavaScript truthiness test, so an absent path and a supplied
empty-string path (falsy) both skip the save. -/
def saveIfRequested (save : String → Except JsValue Unit) :
    Option String → Except JsValue Unit
  | none => Except.ok ()
  | some p => if p = "" then Except.ok () else save p

/-! ## Tool handlers.
Each handler is embedded as a `...Try` body in the `Except` monad (the code
inside the `try` block) plus a wrapper applying the `catch` clause, which
returns `toMcpError(error)`.  Remote calls, image-file loads and image-file
saves are explicit `Except`-valued arguments; argument records carry the
fields the handler logic reads, plus `argsJs`, the JSON value of the parsed
argument object used as the `parameters` metadata field.  The wall-clock
string `new Date().toISOString()` is the `timestamp` argument. -/

/-- arguments of `generatePixelArt` read by the handler logic
(src/src/tools/generatePixelArt.ts). -/
structure GeneratePixelArtArgs where
  description : String
  width : Int
  height : Int
  save_to_file : Option String
  show_image : Bool
  argsJs : JsValue

/-- the `try` body of `generatePixelArt`
(src/src/tools/generatePixelArt.ts lines 76-116). -/
def generatePixelArtTry (args : GeneratePixelArtArgs)
    (remote : Except JsValue GenResponse) (save : String → Except JsValue Unit)
    (timestamp : String) : Except JsValue McpToolResponse := do
  let response ← remote
  let _ ← saveIfRequested save args.save_to_file
  let description := "Generated pixel art: " ++ args.description ++ " ("
      ++ toString args.width ++ "×" ++ toString args.height ++ " pixels)"
  let metadata : JsValue := .obj
    [("parameters", args.argsJs),
     ("dimensions", .obj [("width", .num args.width), ("height", .num args.height)]),
     ("filePath", jsOfOptStr args.save_to_file),
     ("usage", response.usage.js),
     ("timestamp", .str timestamp)]
  if args.show_image then
    toMcpResponse description response.image (some metadata)
  else do
    let mdStr ← stringifyE metadata
    pure { content := [.text description,
                       .text ("Cost: $" ++ response.usage.usdStr ++ " USD"),
                       .text mdStr] }

/-- embedding of the `generatePixelArt` handler
(src/src/tools/generatePixelArt.ts lines 72-121). -/
def generatePixelArt (args : GeneratePixelArtArgs)
    (remote : Except JsValue GenResponse) (save : String → Except JsValue Unit)
    (timestamp : String) : McpToolResponse :=
  match generatePixelArtTry args remote save timestamp with
  | .ok r => r
  | .error e => toMcpError e

/-- arguments of `generatePixelArtWithStyle` read by the handler logic
(src/unnamed/part_009, first file). -/
structure GeneratePixelArtWithStyleArgs where
  description : String
  style_image_path : String
  width : Int
  height : Int
  style_strength : Int
  save_to_file : Option String
  show_image : Bool
  argsJs : JsValue

/-- the `try` body of `generatePixelArtWithStyle`. -/
def generatePixelArtWithStyleTry (args : GeneratePixelArtWithStyleArgs)
    (loadStyle : Except JsValue Base64Image) (remote : Except JsValue GenResponse)
    (save : String → Except JsValue Unit) (timestamp : String) :
    Except JsValue McpToolResponse := do
  let _styleImage ← loadStyle
  let response ← remote
  let _ ← saveIfRequested save args.save_to_file
  let description := "Generated pixel art with style: " ++ args.description
      ++ " (" ++ toString args.width ++ "×" ++ toString args.height
      ++ " pixels, style strength: " ++ toString args.style_strength ++ "%)"
  let metadata : JsValue := .obj
    [("parameters", args.argsJs),
     ("styleReference", .str args.style_image_path),
     ("dimensions", .obj [("width", .num args.width), ("height", .num args.height)]),
     ("filePath", jsOfOptStr args.save_to_file),
     ("usage", response.usage.js),
     ("timestamp", .str timestamp)]
  if args.show_image then
    toMcpResponse description response.image (some metadata)
  else do
    let mdStr ← stringifyE metadata
    pure { content := [.text description,
                       .text ("Cost: $" ++ response.usage.usdStr ++ " USD"),
                       .text mdStr] }

/-- embedding of the `generatePixelArtWithStyle` handler. -/
def generatePixelArtWithStyle (args : GeneratePixelArtWithStyleArgs)
    (loadStyle : Except JsValue Base64Image) (remote : Except JsValue GenResponse)
    (save : String → Except JsValue Unit) (timestamp : String) : McpToolResponse :=
  match generatePixelArtWithStyleTry args loadStyle remote save timestamp with
  | .ok r => r
  | .error e => toMcpError e

/-- the `try` body of `getBalance`
(src/src/tools/estimateSkeleton.ts, second file, lines 72-82). -/
def getBalanceTry (remote : Except JsValue Balance) : Except JsValue McpToolResponse := do
  let balance ← remote
  pure { content := [.text ("PixelLab Balance: $" ++ balance.usdStr
                              ++ " USD\nAccount status: Active")] }

/-- embedding of the `getBalance` handler. -/
def getBalance (remote : Except JsValue Balance) : McpToolResponse :=
  match getBalanceTry remote with
  | .ok r => r
  | .error e => toMcpError e

/-- arguments of `rotateCharacter` read by the handler logic
(src/src/tools/rotateCharacter.ts). -/
structure RotateCharacterArgs where
  image_path : String
  from_direction : Option String
  to_direction : String
  width : Int
  height : Int
  save_to_file : Option String
  show_image : Bool
  argsJs : JsValue

/-- the `try` body of `rotateCharacter`
(src/src/tools/rotateCharacter.ts lines 62-107). -/
def rotateCharacterTry (args : RotateCharacterArgs)
    (loadImage : Except JsValue Base64Image) (remote : Except JsValue GenResponse)
    (save : String → Except JsValue Unit) (timestamp : String) :
    Except JsValue McpToolResponse := do
  let originalImage ← loadImage
  let response ← remote
  let _ ← saveIfRequested save args.save_to_file
  let description := "Rotated character from "
      ++ (args.from_direction.getD "current view") ++ " to " ++ args.to_direction
  let metadata : JsValue := .obj
    [("parameters", args.argsJs),
     ("dimensions", .obj [("width", .num args.width), ("height", .num args.height)]),
     ("filePath", jsOfOptStr args.save_to_file),
     ("usage", response.usage.js),
     ("timestamp", .str timestamp)]
  if args.show_image then
    toMcpComparison description originalImage response.image (some metadata)
  else do
    let mdStr ← stringifyE metadata
    pure { content := [.text description,
                       .text ("Cost: $" ++ response.usage.usdStr ++ " USD"),
                       .text mdStr] }

/-- embedding of the `rotateCharacter` handler
(src/src/tools/rotateCharacter.ts lines 58-111). -/
def rotateCharacter (args : RotateCharacterArgs)
    (loadImage : Except JsValue Base64Image) (remote : Except JsValue GenResponse)
    (save : String → Except JsValue Unit) (timestamp : String) : McpToolResponse :=
  match rotateCharacterTry args loadImage remote save timestamp with
  | .ok r => r
  | .error e => toMcpError e

/-- arguments of `inpaintPixelArt` read by the handler logic
(src/src/tools/generatePixelArt.ts, second file). -/
structure InpaintPixelArtArgs where
  image_path : String
  mask_path : String
  description : String
  width : Int
  height : Int
  save_to_file : Option String
  show_image : Bool
  argsJs : JsValue

/-- the `try` body of `inpaintPixelArt`. -/
def inpaintPixelArtTry (args : InpaintPixelArtArgs)
    (loadOriginal loadMask : Except JsValue Base64Image)
    (remote : Except JsValue GenResponse) (save : String → Except JsValue Unit)
    (timestamp : String) : Except JsValue McpToolResponse := do
  let originalImage ← loadOriginal
  let _maskImage ← loadMask
  let response ← remote
  let _ ← saveIfRequested save args.save_to_file
  let description := "Inpainted pixel art: " ++ args.description
  let metadata : JsValue := .obj
    [("parameters", args.argsJs),
     ("dimensions", .obj [("width", .num args.width), ("height", .num args.height)]),
     ("filePath", jsOfOptStr args.save_to_file),
     ("usage", response.usage.js),
     ("timestamp", .str timestamp)]
  if args.show_image then
    toMcpComparison description originalImage response.image (some metadata)
  else do
    let mdStr ← stringifyE metadata
    pure { content := [.text description,
                       .text ("Cost: $" ++ response.usage.usdStr ++ " USD"),
                       .text mdStr] }

/-- embedding of the `inpaintPixelArt` handler. -/
def inpaintPixelArt (args : InpaintPixelArtArgs)
    (loadOriginal loadMask : Except JsValue Base64Image)
    (remote : Except JsValue GenResponse) (save : String → Except JsValue Unit)
    (timestamp : String) : McpToolResponse :=
  match inpaintPixelArtTry args loadOriginal loadMask remote save timestamp with
  | .ok r => r
  | .error e => toMcpError e

/-- arguments of `estimateSkeleton` read by the handler logic
(src/src/tools/estimateSkeleton.ts). -/
structure EstimateSkeletonArgs where
  image_path : String
  show_image : Bool
  argsJs : JsValue

/-- the `try` body of `estimateSkeleton`
(src/src/tools/estimateSkeleton.ts lines 23-57). -/
def estimateSkeletonTry (args : EstimateSkeletonArgs)
    (loadImage : Except JsValue Base64Image)
    (remote : Except JsValue SkeletonResponse) (timestamp : String) :
    Except JsValue McpToolResponse := do
  let image ← loadImage
  let response ← remote
  let description := "Estimated skeleton with "
      ++ toString response.keypoints.length ++ " keypoints detected"
  let metadata : JsValue := .obj
    [("parameters", args.argsJs),
     ("keypointCount", .num response.keypoints.length),
     ("keypoints", .arr (response.keypoints.map (fun kp => .obj
        [("label", .str kp.label),
         ("position", .obj [("x", .num kp.x), ("y", .num kp.y)]),
         ("zIndex", .num kp.zIndex)]))),
     ("usage", response.usage.js),
     ("timestamp", .str timestamp)]
  if args.show_image then
    toMcpResponse description image (some metadata)
  else do
    let mdStr ← stringifyE metadata
    pure { content := [.text description,
                       .text ("Cost: $" ++ response.usage.usdStr ++ " USD"),
                       .text mdStr] }

/-- embedding of the `estimateSkeleton` handler
(src/src/tools/estimateSkeleton.ts lines 19-61). -/
def estimateSkeleton (args : EstimateSkeletonArgs)
    (loadImage : Except JsValue Base64Image)
    (remote : Except JsValue SkeletonResponse) (timestamp : String) : McpToolResponse :=
  match estimateSkeletonTry args loadImage remote timestamp with
  | .ok r => r
  | .error e => toMcpError e

/-- lift of a handler step into the error monad of the animation handlers,
whose error also carries the file names written before the failure. -/
def mapErrW {α : Type} (r : Except JsValue α) : Except (JsValue × List String) α :=
  match r with
  | .ok v => .ok v
  | .error e => .error (e, [])

/-- the frame-saving loop of the animation handlers: save frame `i` under
`insertFrame path i`; the result (or the error payload) lists the file names
written. -/
def saveFramesGo (save : String → Except JsValue Unit) (path : String) :
    List Base64Image → Nat → Except (JsValue × List String) (List String)
  | [], _ => .ok []
  | _ :: rest, i =>
      match save (insertFrame path i) with
      | .ok _ =>
          match saveFramesGo save path rest (i + 1) with
          | .ok names => .ok (insertFrame path i :: names)
          | .error (e, names) => .error (e, insertFrame path i :: names)
      | .error e => .error (e, [])

/-- the image items appended by the animation handlers when `show_image` is
set: one `image/png` item per frame, carrying the raw base64 payload. -/
def frameImages (showImage : Bool) (images : List Base64Image) : List ContentItem :=
  if showImage then images.map (fun im => ContentItem.image im.base64 "image/png")
  else []

/-- arguments of `animateWithSkeleton` read by the handler logic
(src/src/tools/animateWithSkeleton.ts). -/
structure AnimateWithSkeletonArgs where
  reference_image_path : Option String
  save_to_file : Option String
  show_image : Bool

/-- the summary text of `animateWithSkeleton` when files were saved
(src/src/tools/animateWithSkeleton.ts line 92). -/
def awsSummarySaved (n : Nat) (usage : Usage) (p : String) : String :=
  "Animated pixel art sequence with " ++ toString n
    ++ " frames using skeleton keypoints. Cost: $" ++ usage.usdFixed
    ++ ". Files saved: " ++ frameRangeLabel p n

/-- the summary text of `animateWithSkeleton` without a save path
(src/src/tools/animateWithSkeleton.ts line 97). -/
def awsSummary (n : Nat) (usage : Usage) : String :=
  "Animated pixel art sequence with " ++ toString n
    ++ " frames using skeleton keypoints. Cost: $" ++ usage.usdFixed

/-- the `try` body of `animateWithSkeleton`
(src/src/tools/animateWithSkeleton.ts lines 46-118); the second component of
the result is the list of file names written.  The save branch is guarded by
`if (params.save_to_file)`, a JavaScript truthiness test: an absent path and
a supplied empty-string path (falsy) both skip the save loop. -/
def animateWithSkeletonTry (args : AnimateWithSkeletonArgs)
    (loadRef : Except JsValue Base64Image) (remote : Except JsValue AnimResult)
    (save : String → Except JsValue Unit) :
    Except (JsValue × List String) (McpToolResponse × List String) := do
  let _referenceImage : Option Base64Image ←
    (match args.reference_image_path with
     | some _ => mapErrW (do let img ← loadRef; pure (some img))
     | none => pure none)
  let result ← mapErrW remote
  if 0 < result.images.length then
    match args.save_to_file with
    | some p =>
        if p = "" then
          pure (⟨ContentItem.text (awsSummary result.images.length result.usage)
                   :: frameImages args.show_image result.images, none⟩, [])
        else do
          let written ← saveFramesGo save p result.images 0
          pure (⟨ContentItem.text (awsSummarySaved result.images.length result.usage p)
                   :: frameImages args.show_image result.images, none⟩, written)
    | none =>
        pure (⟨ContentItem.text (awsSummary result.images.length result.usage)
                 :: frameImages args.show_image result.images, none⟩, [])
  else
    pure (⟨[.text "No animated frames were generated."], none⟩, [])

/-- embedding of the `animateWithSkeleton` handler
(src/src/tools/animateWithSkeleton.ts lines 42-122), paired with the list of
file names written. -/
def animateWithSkeleton (args : AnimateWithSkeletonArgs)
    (loadRef : Except JsValue Base64Image) (remote : Except JsValue AnimResult)
    (save : String → Except JsValue Unit) : McpToolResponse × List String :=
  match animateWithSkeletonTry args loadRef remote save with
  | .ok rw => rw
  | .error (e, w) => (toMcpError e, w)

/-- arguments of `animateWithText` read by the handler logic
(src/unnamed/part_009, second file). -/
structure AnimateWithTextArgs where
  description : String
  action : String
  reference_image_path : String
  save_to_file : Option String
  show_image : Bool

/-- the summary text of `animateWithText` when files were saved
(src/unnamed/part_009 line 166). -/
def awtSummarySaved (args : AnimateWithTextArgs) (n : Nat) (usage : Usage)
    (p : String) : String :=
  "Animated pixel art sequence with " ++ toString n
    ++ " frames from text description: \"" ++ args.description
    ++ "\" with action: \"" ++ args.action ++ "\". Cost: $" ++ usage.usdFixed
    ++ ". Files saved: " ++ frameRangeLabel p n

/-- the summary text of `animateWithText` without a save path
(src/unnamed/part_009 line 171). -/
def awtSummary (args : AnimateWithTextArgs) (n : Nat) (usage : Usage) : String :=
  "Animated pixel art sequence with " ++ toString n
    ++ " frames from text description: \"" ++ args.description
    ++ "\" with action: \"" ++ args.action ++ "\". Cost: $" ++ usage.usdFixed

/-- the `try` body of `animateWithText` (src/unnamed/part_009 lines 132-192);
the second component of the result is the list of file names written.  The
save branch is guarded by `if (params.save_to_file)`, a JavaScript truthiness
test: an absent path and a supplied empty-string path (falsy) both skip the
save loop. -/
def animateWithTextTry (args : AnimateWithTextArgs)
    (loadRef : Except JsValue Base64Image) (remote : Except JsValue AnimResult)
    (save : String → Except JsValue Unit) :
    Except (JsValue × List String) (McpToolResponse × List String) := do
  let _referenceImage ← mapErrW loadRef
  let result ← mapErrW remote
  if 0 < result.images.length then
    match args.save_to_file with
    | some p =>
        if p = "" then
          pure (⟨ContentItem.text (awtSummary args result.images.length result.usage)
                   :: frameImages args.show_image result.images, none⟩, [])
        else do
          let written ← saveFramesGo save p result.images 0
          pure (⟨ContentItem.text (awtSummarySaved args result.images.length result.usage p)
                   :: frameImages args.show_image result.images, none⟩, written)
    | none =>
        pure (⟨ContentItem.text (awtSummary args result.images.length result.usage)
                 :: frameImages args.show_image result.images, none⟩, [])
  else
    pure (⟨[.text "No animated frames were generated."], none⟩, [])

/-- embedding of the `animateWithText` handler (src/unnamed/part_009 lines
128-196), paired with the list of file names written. -/
def animateWithText (args : AnimateWithTextArgs)
    (loadRef : Except JsValue Base64Image) (remote : Except JsValue AnimResult)
    (save : String → Except JsValue Unit) : McpToolResponse × List String :=
  match animateWithTextTry args loadRef remote save with
  | .ok rw => rw
  | .error (e, w) => (toMcpError e, w)

/-! ## Theorems -/

/-- a concrete image value used by witnesses and counterexamples. -/
def sampleImage : Base64Image :=
  { dataUrl := "data:image/png;base64,QUJD", base64 := "QUJD" }

/-- a second concrete image value. -/
def sampleImage2 : Base64Image :=
  { dataUrl := "data:image/png;base64,REVG", base64 := "REVG" }

/-- C1: for every input value (Error-like, string, plain object, null,
undefined, cyclic object), `toMcpError` returns — without throwing, which the
embedding expresses by `toMcpError` being a total function into
`McpToolResponse` rather than `Except` — a response whose content is exactly
one text item whose text starts with `"Error: "`, marked as an error; and on
a cyclic self-referencing object the text is the fixed fallback string. -/
theorem toMcpError_never_throws_shape :
    (∀ e : JsValue, ∃ m : String,
        (toMcpError e).content = [ContentItem.text ("Error: " ++ m)] ∧
        (toMcpError e).isError = some true) ∧
    (toMcpError JsValue.cyclic).content
      = [ContentItem.text "Error: Object error: [object Object]"] := by
  constructor
  · intro e
    cases e <;> exact ⟨_, rfl, rfl⟩
  · rfl

/-- C8: the normalization rules of `toMcpError` in priority order: an `Error`
instance contributes its message verbatim; a plain string is used verbatim;
any other non-null object contributes its pretty-printed JSON serialization,
or the object-error fallback when serialization fails; every remaining value
(null, undefined, boolean, number) contributes `"Unknown error: "` followed
by its JavaScript string conversion. -/
theorem toMcpError_normalization_rules :
    (∀ (rl : Bool) (m : String),
        (toMcpError (JsValue.errObj rl m)).content
          = [ContentItem.text ("Error: " ++ m)]) ∧
    (∀ s : String,
        (toMcpError (JsValue.str s)).content
          = [ContentItem.text ("Error: " ++ s)]) ∧
    (∀ fields : List (String × JsValue),
        (toMcpError (JsValue.obj fields)).content
          = [ContentItem.text ("Error: " ++
              (jsonStringify (JsValue.obj fields)).getD
                ("Object error: " ++ jsToStringTag (JsValue.obj fields)))]) ∧
    ((toMcpError JsValue.cyclic).content
      = [ContentItem.text "Error: Object error: [object Object]"]) ∧
    ((toMcpError JsValue.nul).content
      = [ContentItem.text "Error: Unknown error: null"]) ∧
    ((toMcpError JsValue.undef).content
      = [ContentItem.text "Error: Unknown error: undefined"]) ∧
    (∀ b : Bool, (toMcpError (JsValue.bool b)).content
      = [ContentItem.text ("Error: Unknown error: " ++ jsString (JsValue.bool b))]) ∧
    (∀ n : Int, (toMcpError (JsValue.num n)).content
      = [ContentItem.text ("Error: Unknown error: " ++ toString n)]) := by
  refine ⟨fun rl m => rfl, fun s => rfl, fun fields => ?_, rfl, rfl, rfl,
    fun b => rfl, fun n => rfl⟩
  cases h : jsonStringify (JsValue.obj fields) <;>
    simp [toMcpError, h, Option.getD]

/-- C6 counterexample: the claim asserts that `toMcpResponse` called with
only a summary (no image, no metadata) returns exactly one content item.  In
the source, the image argument is required — there is no image-less call —
and the minimal call, a summary with the mandatory image and no metadata,
returns two content items, not one. -/
theorem toMcpResponse_required_image_cex :
    (toMcpResponse "summary" sampleImage none).map (fun r => r.content.length)
      = Except.ok 2 := rfl

/-- C6 amended: `toMcpResponse` requires an image argument; with no metadata
it returns exactly two items, the summary text followed by one image item
with mime type `"image/png"`; supplying truthy JSON-serializable metadata
appends exactly one trailing text item holding its JSON serialization, in
the fixed order summary, image, metadata. -/
theorem toMcpResponse_shape :
    (∀ (d : String) (img : Base64Image),
        toMcpResponse d img none
          = .ok { content := [ContentItem.text d,
                              ContentItem.image img.dataUrl "image/png"] }) ∧
    (∀ (d : String) (img : Base64Image) (m : JsValue) (s : String),
        truthy m = true → jsonStringify m = some s →
        toMcpResponse d img (some m)
          = .ok { content := [ContentItem.text d,
                              ContentItem.image img.dataUrl "image/png",
                              ContentItem.text s] }) := by
  constructor
  · intro d img
    rfl
  · intro d img m s ht hs
    simp [toMcpResponse, stringifyE, ht, hs, Except.map]

/-- witness for the amended C6 theorem at a concrete truthy metadata object. -/
theorem toMcpResponse_shape_witness :
    toMcpResponse "d" sampleImage (some (JsValue.obj [("a", JsValue.num 1)]))
      = .ok { content := [ContentItem.text "d",
                          ContentItem.image sampleImage.dataUrl "image/png",
                          ContentItem.text "\x7b\n  \"a\": 1\n\x7d"] } :=
  toMcpResponse_shape.2 "d" sampleImage (JsValue.obj [("a", JsValue.num 1)])
    "\x7b\n  \"a\": 1\n\x7d" rfl rfl

/-- C7 counterexample: the claim asserts exactly 6 content items whenever
metadata is supplied, but the source guards the metadata item with a
JavaScript truthiness test, so the supplied falsy metadata value `0` yields
only 5 items. -/
theorem toMcpComparison_falsy_metadata_cex :
    (toMcpComparison "s" sampleImage sampleImage2 (some (JsValue.num 0))).map
        (fun r => r.content.length) = Except.ok 5 := rfl

/-- C7 amended: `toMcpComparison` returns exactly 5 items when metadata is
absent or falsy, and exactly 6 when the supplied metadata is truthy and
JSON-serializable, in the fixed order summary, "Before:", before-image,
"After:", after-image, metadata. -/
theorem toMcpComparison_shape :
    (∀ (d : String) (b a : Base64Image),
        toMcpComparison d b a none
          = .ok { content := [ContentItem.text d, ContentItem.text "Before:",
                              ContentItem.image b.dataUrl "image/png",
                              ContentItem.text "After:",
                              ContentItem.image a.dataUrl "image/png"] }) ∧
    (∀ (d : String) (b a : Base64Image) (m : JsValue),
        truthy m = false →
        toMcpComparison d b a (some m)
          = .ok { content := [ContentItem.text d, ContentItem.text "Before:",
                              ContentItem.image b.dataUrl "image/png",
                              ContentItem.text "After:",
                              ContentItem.image a.dataUrl "image/png"] }) ∧
    (∀ (d : String) (b a : Base64Image) (m : JsValue) (s : String),
        truthy m = true → jsonStringify m = some s →
        toMcpComparison d b a (some m)
          = .ok { content := [ContentItem.text d, ContentItem.text "Before:",
                              ContentItem.image b.dataUrl "image/png",
                              ContentItem.text "After:",
                              ContentItem.image a.dataUrl "image/png",
                              ContentItem.text s] }) := by
  refine ⟨fun d b a => rfl, fun d b a m hf => ?_, fun d b a m s ht hs => ?_⟩
  · simp [toMcpComparison, hf]
  · simp [toMcpComparison, stringifyE, ht, hs, Except.map]

/-- witness for the amended C7 theorem at a concrete truthy metadata object. -/
theorem toMcpComparison_shape_witness :
    toMcpComparison "s" sampleImage sampleImage2
        (some (JsValue.obj [("a", JsValue.num 1)]))
      = .ok { content := [ContentItem.text "s", ContentItem.text "Before:",
                          ContentItem.image sampleImage.dataUrl "image/png",
                          ContentItem.text "After:",
                          ContentItem.image sampleImage2.dataUrl "image/png",
                          ContentItem.text "\x7b\n  \"a\": 1\n\x7d"] } :=
  toMcpComparison_shape.2.2 "s" sampleImage sampleImage2
    (JsValue.obj [("a", JsValue.num 1)]) "\x7b\n  \"a\": 1\n\x7d" rfl rfl

/-- after `j` consecutive rate-limit failures from attempt `a` on, a success
at attempt `a + j` within the retry bound is returned with `j + 1` calls. -/
lemma retryGo_eventual_ok {α : Type} (fn : Nat → Except JsValue α)
    (b mR : Nat) (v : α) :
    ∀ (j a : Nat), (∀ i, i < j → failsRateLimit (fn (a + i)) = true) →
      fn (a + j) = .ok v → a + j ≤ mR →
      (retryGo fn b mR a).result = .ok v ∧ (retryGo fn b mR a).calls = j + 1 := by
  intro j
  induction j with
  | zero =>
      intro a _ hok _
      rw [Nat.add_zero] at hok
      rw [retryGo, hok]
      exact ⟨rfl, rfl⟩
  | succ j ih =>
      intro a hfail hok hle
      have h0 : failsRateLimit (fn a) = true := by
        have := hfail 0 (Nat.succ_pos j)
        rwa [Nat.add_zero] at this
      cases hfa : fn a with
      | ok w => rw [hfa] at h0; simp [failsRateLimit] at h0
      | error e =>
          rw [hfa] at h0
          have hrl : isRateLimitError e = true := h0
          have hlt : a < mR := by omega
          rw [retryGo, hfa]
          have hcond : isRateLimitError e = true ∧ a < mR := ⟨hrl, hlt⟩
          dsimp only
          rw [if_pos hcond]
          have ih' := ih (a + 1)
            (fun i hi => by
              have := hfail (i + 1) (Nat.succ_lt_succ hi)
              rwa [show a + (i + 1) = a + 1 + i by omega] at this)
            (by rwa [show a + 1 + j = a + (j + 1) by omega])
            (by omega)
          exact ⟨ih'.1, by simp [ih'.2]⟩

/-- C3: an operation that fails with a rate-limit (retryable) error exactly
`k` times and then succeeds with `v`, run through `retryWithBackoff` with
`maxRetries ≥ k`, returns `v` after exactly `k + 1` invocations. -/
theorem retryWithBackoff_eventual_success {α : Type}
    (fn : Nat → Except JsValue α) (k : Nat) (v : α) (maxRetries baseDelay : Nat) :
    (∀ i, i < k → failsRateLimit (fn i) = true) → fn k = .ok v →
    k ≤ maxRetries →
    (retryWithBackoff fn maxRetries baseDelay).result = .ok v ∧
    (retryWithBackoff fn maxRetries baseDelay).calls = k + 1 := by
  intro hfail hok hle
  have := retryGo_eventual_ok fn baseDelay maxRetries v k 0
    (fun i hi => by simpa using hfail i hi) (by simpa using hok) (by omega)
  exact this

/-- a concrete rate-limit error: a `RateLimitError` instance. -/
def sampleRateLimit : JsValue := JsValue.errObj true "rate limited"

/-- a concrete terminal error: an `Error` whose message matches neither
rate-limit pattern. -/
def sampleTerminal : JsValue := JsValue.errObj false "Invalid API key"

/-- a concrete operation failing with a rate-limit error on the first two
attempts, then succeeding with 42. -/
def c3fn : Nat → Except JsValue Nat :=
  fun i => if i < 2 then .error sampleRateLimit else .ok 42

/-- witness for C3: two rate-limit failures then success, `maxRetries = 3`. -/
theorem retryWithBackoff_eventual_success_witness :
    (retryWithBackoff c3fn 3 5).result = .ok 42 ∧
    (retryWithBackoff c3fn 3 5).calls = 3 :=
  retryWithBackoff_eventual_success c3fn 2 42 3 5 (by decide) rfl (by decide)

/-- when every attempt from `a` up to the bound fails with a rate-limit
error, the run performs all remaining attempts and re-raises the error of the
final attempt unchanged. -/
lemma retryGo_all_fail {α : Type} (fn : Nat → Except JsValue α) (b mR : Nat) :
    ∀ (j a : Nat) (e : JsValue),
      (∀ i, i ≤ j → failsRateLimit (fn (a + i)) = true) →
      a + j = mR → fn (a + j) = .error e →
      (retryGo fn b mR a).result = .error e ∧
      (retryGo fn b mR a).calls = j + 1 := by
  intro j
  induction j with
  | zero =>
      intro a e _ heq herr
      rw [Nat.add_zero] at heq herr
      subst heq
      have hlt : ¬ (isRateLimitError e = true ∧ a < a) := fun h => Nat.lt_irrefl a h.2
      rw [retryGo, herr]
      dsimp only
      rw [if_neg hlt]
      exact ⟨rfl, rfl⟩
  | succ j ih =>
      intro a e hfail heq herr
      have h0 : failsRateLimit (fn a) = true := by
        have := hfail 0 (Nat.zero_le _)
        rwa [Nat.add_zero] at this
      cases hfa : fn a with
      | ok w => rw [hfa] at h0; simp [failsRateLimit] at h0
      | error e0 =>
          rw [hfa] at h0
          have hrl : isRateLimitError e0 = true := h0
          have hlt : a < mR := by omega
          rw [retryGo, hfa]
          dsimp only
          rw [if_pos (show isRateLimitError e0 = true ∧ a < mR from ⟨hrl, hlt⟩)]
          have ih' := ih (a + 1) e
            (fun i hi => by
              have := hfail (i + 1) (Nat.succ_le_succ hi)
              rwa [show a + (i + 1) = a + 1 + i by omega] at this)
            (by omega)
            (by rwa [show a + 1 + j = a + (j + 1) by omega])
          exact ⟨ih'.1, by simp [ih'.2]⟩

/-- C4: an operation that fails with a rate-limit (retryable) error on every
attempt, run through `retryWithBackoff` with `maxRetries = m`, is invoked
exactly `m + 1` times and the error of the last attempt is re-raised
unchanged; in particular `m = 0` yields exactly one attempt. -/
theorem retryWithBackoff_exhausts_and_rethrows {α : Type}
    (fn : Nat → Except JsValue α) (m baseDelay : Nat) (e : JsValue) :
    (∀ i, i ≤ m → failsRateLimit (fn i) = true) → fn m = .error e →
    (retryWithBackoff fn m baseDelay).result = .error e ∧
    (retryWithBackoff fn m baseDelay).calls = m + 1 := by
  intro hfail herr
  have := retryGo_all_fail fn baseDelay m m 0 e
    (fun i hi => by simpa using hfail i hi) (by omega) (by simpa using herr)
  exact this

/-- a concrete operation failing with a rate-limit error on every attempt. -/
def c4fn : Nat → Except JsValue Nat := fun _ => .error sampleRateLimit

/-- witness for C4 at `maxRetries = 0`: exactly one attempt, the error
re-raised unchanged. -/
theorem retryWithBackoff_exhausts_and_rethrows_witness :
    (retryWithBackoff c4fn 0 7).result = .error sampleRateLimit ∧
    (retryWithBackoff c4fn 0 7).calls = 0 + 1 :=
  retryWithBackoff_exhausts_and_rethrows c4fn 0 7 sampleRateLimit
    (by decide) rfl

/-- C5: an operation whose first invocation fails with a terminal
(non-rate-limit) error is invoked exactly once and the error is re-raised
immediately — one call, no delays — for every value of `maxRetries`. -/
theorem retryWithBackoff_terminal_immediate {α : Type}
    (fn : Nat → Except JsValue α) (maxRetries baseDelay : Nat) (e : JsValue) :
    fn 0 = .error e → isRateLimitError e = false →
    retryWithBackoff fn maxRetries baseDelay
      = { result := .error e, calls := 1, delays := [] } := by
  intro herr hterm
  rw [retryWithBackoff, retryGo, herr]
  dsimp only
  rw [if_neg (fun h : isRateLimitError e = true ∧ 0 < maxRetries => by
    rw [hterm] at h; exact Bool.false_ne_true h.1)]

/-- a concrete operation failing with a terminal error on every attempt. -/
def c5fn : Nat → Except JsValue Nat := fun _ => .error sampleTerminal

/-- witness for C5: a terminal first failure with a large retry budget still
gives exactly one call and no delays. -/
theorem retryWithBackoff_terminal_immediate_witness :
    retryWithBackoff c5fn 9 1000
      = { result := .error sampleTerminal, calls := 1, delays := [] } :=
  retryWithBackoff_terminal_immediate c5fn 9 1000 sampleTerminal rfl (by decide)

/-- C2: for every tool handler and every exception raised inside its `try`
body (image load, remote call, file save, metadata serialization), the
handler returns `toMcpError(error)` instead of propagating the exception;
and `toMcpError` always produces a single text item beginning with
`"Error: "`, marked as an error. -/
theorem handlers_catch_all :
    (∀ args remote save ts e,
        generatePixelArtTry args remote save ts = .error e →
        generatePixelArt args remote save ts = toMcpError e) ∧
    (∀ args loadStyle remote save ts e,
        generatePixelArtWithStyleTry args loadStyle remote save ts = .error e →
        generatePixelArtWithStyle args loadStyle remote save ts = toMcpError e) ∧
    (∀ remote e, getBalanceTry remote = .error e →
        getBalance remote = toMcpError e) ∧
    (∀ args loadImage remote save ts e,
        rotateCharacterTry args loadImage remote save ts = .error e →
        rotateCharacter args loadImage remote save ts = toMcpError e) ∧
    (∀ args loadOriginal loadMask remote save ts e,
        inpaintPixelArtTry args loadOriginal loadMask remote save ts = .error e →
        inpaintPixelArt args loadOriginal loadMask remote save ts = toMcpError e) ∧
    (∀ args loadImage remote ts e,
        estimateSkeletonTry args loadImage remote ts = .error e →
        estimateSkeleton args loadImage remote ts = toMcpError e) ∧
    (∀ args loadRef remote save e w,
        animateWithSkeletonTry args loadRef remote save = .error (e, w) →
        (animateWithSkeleton args loadRef remote save).1 = toMcpError e) ∧
    (∀ args loadRef remote save e w,
        animateWithTextTry args loadRef remote save = .error (e, w) →
        (animateWithText args loadRef remote save).1 = toMcpError e) ∧
    (∀ e : JsValue, ∃ m : String,
        (toMcpError e).content = [ContentItem.text ("Error: " ++ m)] ∧
        (toMcpError e).isError = some true) := by
  refine ⟨?_, ?_, ?_, ?_, ?_, ?_, ?_, ?_, ?_⟩
  · intro args remote save ts e h
    simp [generatePixelArt, h]
  · intro args loadStyle remote save ts e h
    simp [generatePixelArtWithStyle, h]
  · intro remote e h
    simp [getBalance, h]
  · intro args loadImage remote save ts e h
    simp [rotateCharacter, h]
  · intro args loadOriginal loadMask remote save ts e h
    simp [inpaintPixelArt, h]
  · intro args loadImage remote ts e h
    simp [estimateSkeleton, h]
  · intro args loadRef remote save e w h
    simp [animateWithSkeleton, h]
  · intro args loadRef remote save e w h
    simp [animateWithText, h]
  · intro e
    cases e <;> exact ⟨_, rfl, rfl⟩

/-- a concrete thrown error used by the C2 witness. -/
def sampleThrown : JsValue := JsValue.str "boom"

/-- a save effect that always succeeds. -/
def saveOk : String → Except JsValue Unit := fun _ => .ok ()

/-- concrete arguments for the `generatePixelArt` witness run. -/
def cGenArgs : GeneratePixelArtArgs :=
  { description := "cute dragon", width := 64, height := 64,
    save_to_file := none, show_image := false, argsJs := JsValue.obj [] }

/-- concrete arguments for the `generatePixelArtWithStyle` witness run. -/
def cStyleArgs : GeneratePixelArtWithStyleArgs :=
  { description := "warrior", style_image_path := "style.png", width := 64,
    height := 64, style_strength := 50, save_to_file := none,
    show_image := false, argsJs := JsValue.obj [] }

/-- concrete arguments for the `rotateCharacter` witness run. -/
def cRotArgs : RotateCharacterArgs :=
  { image_path := "c.png", from_direction := some "south",
    to_direction := "east", width := 64, height := 64, save_to_file := none,
    show_image := false, argsJs := JsValue.obj [] }

/-- concrete arguments for the `inpaintPixelArt` witness run. -/
def cInpArgs : InpaintPixelArtArgs :=
  { image_path := "c.png", mask_path := "m.png", description := "red hat",
    width := 64, height := 64, save_to_file := none, show_image := false,
    argsJs := JsValue.obj [] }

/-- concrete arguments for the `estimateSkeleton` witness run. -/
def cSkelArgs : EstimateSkeletonArgs :=
  { image_path := "c.png", show_image := false, argsJs := JsValue.obj [] }

/-- concrete arguments for the `animateWithSkeleton` witness run. -/
def cAnimSkelArgs : AnimateWithSkeletonArgs :=
  { reference_image_path := none, save_to_file := none, show_image := false }

/-- concrete arguments for the `animateWithText` witness run. -/
def cAnimTextArgs : AnimateWithTextArgs :=
  { description := "knight", action := "walk", reference_image_path := "k.png",
    save_to_file := none, show_image := false }

/-- witness for C2: each of the eight handlers, run with a failing remote
call, returns `toMcpError` of the thrown value. -/
theorem handlers_catch_all_witness :
    generatePixelArt cGenArgs (.error sampleThrown) saveOk "t" = toMcpError sampleThrown ∧
    generatePixelArtWithStyle cStyleArgs (.ok sampleImage) (.error sampleThrown)
      saveOk "t" = toMcpError sampleThrown ∧
    getBalance (.error sampleThrown) = toMcpError sampleThrown ∧
    rotateCharacter cRotArgs (.ok sampleImage) (.error sampleThrown) saveOk "t"
      = toMcpError sampleThrown ∧
    inpaintPixelArt cInpArgs (.ok sampleImage) (.ok sampleImage2)
      (.error sampleThrown) saveOk "t" = toMcpError sampleThrown ∧
    estimateSkeleton cSkelArgs (.ok sampleImage) (.error sampleThrown) "t"
      = toMcpError sampleThrown ∧
    (animateWithSkeleton cAnimSkelArgs (.ok sampleImage) (.error sampleThrown)
      saveOk).1 = toMcpError sampleThrown ∧
    (animateWithText cAnimTextArgs (.ok sampleImage) (.error sampleThrown)
      saveOk).1 = toMcpError sampleThrown :=
  ⟨handlers_catch_all.1 cGenArgs (.error sampleThrown) saveOk "t" sampleThrown rfl,
   handlers_catch_all.2.1 cStyleArgs (.ok sampleImage) (.error sampleThrown)
     saveOk "t" sampleThrown rfl,
   handlers_catch_all.2.2.1 (.error sampleThrown) sampleThrown rfl,
   handlers_catch_all.2.2.2.1 cRotArgs (.ok sampleImage) (.error sampleThrown)
     saveOk "t" sampleThrown rfl,
   handlers_catch_all.2.2.2.2.1 cInpArgs (.ok sampleImage) (.ok sampleImage2)
     (.error sampleThrown) saveOk "t" sampleThrown rfl,
   handlers_catch_all.2.2.2.2.2.1 cSkelArgs (.ok sampleImage)
     (.error sampleThrown) "t" sampleThrown rfl,
   handlers_catch_all.2.2.2.2.2.2.1 cAnimSkelArgs (.ok sampleImage)
     (.error sampleThrown) saveOk sampleThrown [] rfl,
   handlers_catch_all.2.2.2.2.2.2.2.1 cAnimTextArgs (.ok sampleImage)
     (.error sampleThrown) saveOk sampleThrown [] rfl⟩

/-- characters before a trailing dot-free segment are all kept by the
extension scan. -/
lemma takeWhile_no_dot (l1 l2 : List Char) (h : '.' ∉ l1) :
    (l1 ++ '.' :: l2).takeWhile (fun c => c ≠ '.') = l1 := by
  induction l1 with
  | nil => simp
  | cons c t ih =>
      have hc : ¬ c = '.' := fun hc => h (by simp [hc])
      have ht : '.' ∉ t := fun hm => h (List.mem_cons_of_mem c hm)
      simp [List.takeWhile_cons, hc]
      simpa using ih ht

/-- the extension scan stops exactly at the trailing dot. -/
lemma dropWhile_no_dot (l1 l2 : List Char) (h : '.' ∉ l1) :
    (l1 ++ '.' :: l2).dropWhile (fun c => c ≠ '.') = '.' :: l2 := by
  induction l1 with
  | nil => simp
  | cons c t ih =>
      have hc : ¬ c = '.' := fun hc => h (by simp [hc])
      have ht : '.' ∉ t := fun hm => h (List.mem_cons_of_mem c hm)
      simp [List.dropWhile_cons, hc]
      simpa using ih ht

/-- a path of the form `stem.ext`, with `ext` non-empty and dot-free, splits
into `stem` and `.ext`. -/
lemma splitExtChars_append (s e : List Char) (hne : e ≠ []) (hd : '.' ∉ e) :
    splitExtChars (s ++ '.' :: e) = (s, '.' :: e) := by
  have hrev : '.' ∉ e.reverse := by simpa using hd
  have h1 : (s ++ '.' :: e).reverse = e.reverse ++ '.' :: s.reverse := by
    simp [List.reverse_append]
  unfold splitExtChars
  simp only [h1, takeWhile_no_dot _ _ hrev, dropWhile_no_dot _ _ hrev]
  rw [if_neg (by simp [hne])]
  simp

/-- inserting a marker into a path of the form `stem.ext` places it exactly
before the extension. -/
lemma replaceExt_append (stem ext marker : String)
    (hne : ext.data ≠ []) (hd : '.' ∉ ext.data) :
    replaceExt (stem ++ "." ++ ext) marker = stem ++ marker ++ "." ++ ext := by
  have hdata : (stem ++ "." ++ ext).data = stem.data ++ '.' :: ext.data := by
    simp [String.data_append]
  unfold replaceExt
  rw [hdata, splitExtChars_append _ _ hne hd]
  refine congrArg String.mk ?_
  simp [String.data_append]

/-- when every file write succeeds, the frame-saving loop writes exactly one
file per frame, named by `insertFrame` at consecutive indices. -/
lemma saveFramesGo_all_ok (save : String → Except JsValue Unit)
    (hsave : ∀ s, save s = .ok ()) (p : String) :
    ∀ (frames : List Base64Image) (i : Nat),
      saveFramesGo save p frames i
        = .ok ((List.range frames.length).map (fun j => insertFrame p (i + j))) := by
  intro frames
  induction frames with
  | nil => intro i; simp [saveFramesGo]
  | cons f rest ih =>
      intro i
      rw [saveFramesGo, hsave, ih (i + 1)]
      dsimp only
      rw [List.length_cons, List.range_succ_eq_map, List.map_cons, List.map_map]
      have hmap : List.map (fun j => insertFrame p (i + 1 + j)) (List.range rest.length)
          = List.map ((fun j => insertFrame p (i + j)) ∘ Nat.succ) (List.range rest.length) :=
        List.map_congr_left (fun a _ => by
          simp only [Function.comp_apply]
          congr 1
          omega)
      rw [hmap]
      simp

/-- C9 (amended): the animation handlers expand a truthy (non-empty) save
path into one path per frame by inserting `_frame<N>` before the file
extension: (1) on any path of the form `stem.ext` the inserted marker lands
exactly before the extension; (2, 3) on a successful run with a non-empty
`save_to_file` supplied, `animateWithText` and `animateWithSkeleton` write
exactly the files `insertFrame path i` for `i` below the frame count;
(4) path `"out.png"` with 3 frames yields exactly `out_frame0.png`,
`out_frame1.png`, `out_frame2.png`.  A supplied empty-string path is falsy
under the `if (params.save_to_file)` guard and writes no files (see the
counterexample). -/
theorem animate_frame_paths :
    (∀ (stem ext : String) (i : Nat), ext.data ≠ [] → '.' ∉ ext.data →
        insertFrame (stem ++ "." ++ ext) i
          = stem ++ ("_frame" ++ toString i) ++ "." ++ ext) ∧
    (∀ (args : AnimateWithTextArgs) (img : Base64Image) (res : AnimResult)
        (save : String → Except JsValue Unit) (p : String),
        args.save_to_file = some p → p ≠ "" → (∀ s, save s = .ok ()) →
        (animateWithText args (.ok img) (.ok res) save).2
          = (List.range res.images.length).map (fun i => insertFrame p i)) ∧
    (∀ (args : AnimateWithSkeletonArgs) (img : Base64Image) (res : AnimResult)
        (save : String → Except JsValue Unit) (p : String),
        args.save_to_file = some p → p ≠ "" → (∀ s, save s = .ok ()) →
        (animateWithSkeleton args (.ok img) (.ok res) save).2
          = (List.range res.images.length).map (fun i => insertFrame p i)) ∧
    ((List.range 3).map (fun i => insertFrame "out.png" i)
      = ["out_frame0.png", "out_frame1.png", "out_frame2.png"]) := by
  refine ⟨?_, ?_, ?_, ?_⟩
  · intro stem ext i hne hd
    exact replaceExt_append stem ext ("_frame" ++ toString i) hne hd
  · intro args img res save p hp hpe hsave
    by_cases hlen : 0 < res.images.length
    · have htry : animateWithTextTry args (.ok img) (.ok res) save
          = .ok ({ content := ContentItem.text
                     (awtSummarySaved args res.images.length res.usage p)
                     :: frameImages args.show_image res.images },
                 (List.range res.images.length).map (fun j => insertFrame p (0 + j))) := by
        unfold animateWithTextTry
        dsimp only [mapErrW, Bind.bind, Except.bind]
        rw [if_pos hlen, hp]
        dsimp only
        rw [if_neg hpe]
        rw [saveFramesGo_all_ok save hsave p]
        rfl
      unfold animateWithText
      rw [htry]
      simp
    · have htry : animateWithTextTry args (.ok img) (.ok res) save
          = .ok ({ content := [ContentItem.text "No animated frames were generated."] }, []) := by
        unfold animateWithTextTry
        dsimp only [mapErrW, Bind.bind, Except.bind]
        rw [if_neg hlen]
        rfl
      have hz : res.images.length = 0 := by omega
      unfold animateWithText
      rw [htry, hz]
      simp
  · intro args img res save p hp hpe hsave
    by_cases hlen : 0 < res.images.length
    · have htry : animateWithSkeletonTry args (.ok img) (.ok res) save
          = .ok ({ content := ContentItem.text
                     (awsSummarySaved res.images.length res.usage p)
                     :: frameImages args.show_image res.images },
                 (List.range res.images.length).map (fun j => insertFrame p (0 + j))) := by
        unfold animateWithSkeletonTry
        cases harg : args.reference_image_path with
        | none =>
            dsimp only [mapErrW, Bind.bind, Except.bind]
            rw [if_pos hlen, hp]
            dsimp only
            rw [if_neg hpe]
            rw [saveFramesGo_all_ok save hsave p]
            rfl
        | some rp =>
            dsimp only [mapErrW, Bind.bind, Except.bind]
            rw [if_pos hlen, hp]
            dsimp only
            rw [if_neg hpe]
            rw [saveFramesGo_all_ok save hsave p]
            rfl
      unfold animateWithSkeleton
      rw [htry]
      simp
    · have htry : animateWithSkeletonTry args (.ok img) (.ok res) save
          = .ok ({ content := [ContentItem.text "No animated frames were generated."] }, []) := by
        unfold animateWithSkeletonTry
        cases harg : args.reference_image_path with
        | none =>
            dsimp only [mapErrW, Bind.bind, Except.bind]
            rw [if_neg hlen]
            rfl
        | some rp =>
            dsimp only [mapErrW, Bind.bind, Except.bind]
            rw [if_neg hlen]
            rfl
      have hz : res.images.length = 0 := by omega
      unfold animateWithSkeleton
      rw [htry, hz]
      simp
  · rfl

/-- a concrete usage record for witness runs. -/
def sampleUsage : Usage :=
  { usdStr := "0.04", usdFixed := "0.0400", js := JsValue.obj [] }

/-- a concrete 3-frame animation result. -/
def cAnim3 : AnimResult :=
  { images := [sampleImage, sampleImage2, sampleImage], usage := sampleUsage }

/-- a concrete empty animation result. -/
def cAnim0 : AnimResult :=
  { images := [], usage := sampleUsage }

/-- concrete `animateWithText` arguments with a save path. -/
def cAnimTextSaveArgs : AnimateWithTextArgs :=
  { description := "knight", action := "walk", reference_image_path := "k.png",
    save_to_file := some "out.png", show_image := false }

/-- witness for C9: a 3-frame `animateWithText` run saving to `"out.png"`
writes exactly `out_frame0.png`, `out_frame1.png`, `out_frame2.png`. -/
theorem animate_frame_paths_witness :
    (animateWithText cAnimTextSaveArgs (.ok sampleImage) (.ok cAnim3) saveOk).2
      = ["out_frame0.png", "out_frame1.png", "out_frame2.png"] :=
  (animate_frame_paths.2.1 cAnimTextSaveArgs sampleImage cAnim3 saveOk "out.png"
    rfl (by decide) (fun _ => rfl)).trans (by decide)

/-- concrete `animateWithText` arguments with a supplied empty-string save
path, which is falsy in JavaScript. -/
def cAnimTextEmptyPathArgs : AnimateWithTextArgs :=
  { description := "knight", action := "walk", reference_image_path := "k.png",
    save_to_file := some "", show_image := false }

/-- C9 counterexample: the claim, read at the supplied save path `""` with a
3-frame result, asserts one file per frame (`insertFrame "" i`, a non-empty
list); but `if (params.save_to_file)` is a JavaScript truthiness test, the
empty string is falsy, and the handler writes no files at all. -/
theorem animate_empty_path_cex :
    (animateWithText cAnimTextEmptyPathArgs (.ok sampleImage) (.ok cAnim3) saveOk).2
      = [] ∧
    (List.range cAnim3.images.length).map (fun i => insertFrame "" i) ≠ [] :=
  ⟨rfl, by decide⟩

/-- C10: when the remote animation call returns an empty list of frames,
`animateWithText` and `animateWithSkeleton` return exactly one text item
reading `"No animated frames were generated."`, with no image items and no
files written, regardless of `show_image` and `save_to_file`. -/
theorem animate_empty_frames :
    (∀ (args : AnimateWithTextArgs) (img : Base64Image) (res : AnimResult)
        (save : String → Except JsValue Unit), res.images = [] →
        animateWithText args (.ok img) (.ok res) save
          = ({ content := [ContentItem.text "No animated frames were generated."] }, [])) ∧
    (∀ (args : AnimateWithSkeletonArgs) (img : Base64Image) (res : AnimResult)
        (save : String → Except JsValue Unit), res.images = [] →
        animateWithSkeleton args (.ok img) (.ok res) save
          = ({ content := [ContentItem.text "No animated frames were generated."] }, [])) := by
  constructor
  · intro args img res save hres
    have hlen : ¬ 0 < res.images.length := by simp [hres]
    have htry : animateWithTextTry args (.ok img) (.ok res) save
        = .ok ({ content := [ContentItem.text "No animated frames were generated."] }, []) := by
      unfold animateWithTextTry
      dsimp only [mapErrW, Bind.bind, Except.bind]
      rw [if_neg hlen]
      rfl
    unfold animateWithText
    rw [htry]
  · intro args img res save hres
    have hlen : ¬ 0 < res.images.length := by simp [hres]
    have htry : animateWithSkeletonTry args (.ok img) (.ok res) save
        = .ok ({ content := [ContentItem.text "No animated frames were generated."] }, []) := by
      unfold animateWithSkeletonTry
      cases harg : args.reference_image_path with
      | none =>
          dsimp only [mapErrW, Bind.bind, Except.bind]
          rw [if_neg hlen]
          rfl
      | some rp =>
          dsimp only [mapErrW, Bind.bind, Except.bind]
          rw [if_neg hlen]
          rfl
    unfold animateWithSkeleton
    rw [htry]

/-- concrete `animateWithText` arguments with both `show_image` and a save
path set, for the C10 witness. -/
def cAnimTextShowArgs : AnimateWithTextArgs :=
  { description := "knight", action := "run", reference_image_path := "k.png",
    save_to_file := some "out.png", show_image := true }

/-- concrete `animateWithSkeleton` arguments with both `show_image` and a
save path set, for the C10 witness. -/
def cAnimSkelShowArgs : AnimateWithSkeletonArgs :=
  { reference_image_path := some "r.png", save_to_file := some "out.png",
    show_image := true }

/-- witness for C10: empty-frame results at concrete arguments with
`show_image` and `save_to_file` both set. -/
theorem animate_empty_frames_witness :
    animateWithText cAnimTextShowArgs (.ok sampleImage) (.ok cAnim0) saveOk
      = ({ content := [ContentItem.text "No animated frames were generated."] }, []) ∧
    animateWithSkeleton cAnimSkelShowArgs (.ok sampleImage) (.ok cAnim0) saveOk
      = ({ content := [ContentItem.text "No animated frames were generated."] }, []) :=
  ⟨animate_empty_frames.1 cAnimTextShowArgs sampleImage cAnim0 saveOk rfl,
   animate_empty_frames.2 cAnimSkelShowArgs sampleImage cAnim0 saveOk rfl⟩
